import Mathlib

/-!
Verification of the stuber searcher (`searcher.go`): the query-resolution
engine of an in-memory stub repository. The searcher itself (`find`,
`searchByID`, `search`, `mark`, `used`, `unused`, `findBy`, `wrap`) is
translated directly from the source. The storage layer, the record and
query value types and the matcher/ranker capabilities are not part of the
given source file; they are modelled from the specification, as noted on
each such definition.
-/

namespace Stuber

/-- Identifiers are globally unique 128-bit UUID values; modelled abstractly
as natural numbers. -/
abbrev UUID := Nat

/-- Modelled from the spec: a stored record (`Stub`) owns an identifier, a
service name, a method name, and opaque matching criteria plus response data
that the engine compares only through the matcher capability; the opaque part
is modelled as a single natural number. -/
structure Stub where
  ID : UUID
  service : String
  method : String
  payload : Nat
deriving DecidableEq

/-- Modelled from the spec: a query carries service, method, an optional
explicit identifier, the structured input to compare (opaque), and the
internal flag marking synthetic requests excluded from usage tracking. -/
structure Query where
  service : String
  method : String
  ID : Option UUID
  payload : Nat
  internal : Bool
deriving DecidableEq

/-- `RequestInternal` reports whether the query is a synthetic internal
request excluded from usage tracking. -/
def Query.RequestInternal (q : Query) : Bool := q.internal

/-- Error values: the storage layer's two internal errors (`leftNotFound` for
an absent service bucket, `rightNotFound` for an absent method bucket), the
three public errors of the searcher, and a catch-all constructor for errors
from other collaborators. -/
inductive SErr where
  | leftNotFound
  | rightNotFound
  | serviceNotFound
  | methodNotFound
  | stubNotFound
  | other (msg : String)
deriving DecidableEq

/-- The result of a search operation: `found` is the exact match found,
`similar` the most similar match found. -/
structure Result where
  found : Option Stub
  similar : Option Stub
deriving DecidableEq

/-- Modelled from the spec: the matcher/ranker capabilities (`match` and
`rankMatch` in the source, not part of the given file) are two pure stateless
functions consumed opaquely: `isMatch query record` decides a strict match,
`rank query record` is the similarity score, modelled over ℚ. -/
structure Matcher where
  isMatch : Query → Stub → Bool
  rank : Query → Stub → ℚ

/-- Modelled from the spec: the two-level index (`storage`) is not part of
the given source file; it is modelled by its flat identifier → record store,
with every record filed under exactly its own latest (service, method)
coordinate and buckets existing exactly when nonempty (pruning). -/
structure Storage where
  items : List Stub
deriving DecidableEq

/-- Modelled from the spec: `findByID` is the flat identifier → record point
lookup, returning the record or absent. -/
def Storage.findByID (st : Storage) (id : UUID) : Option Stub :=
  st.items.find? (fun r => r.ID == id)

/-- Modelled from the spec: `findByIDs` looks up each identifier in turn,
silently skipping absent ones. -/
def Storage.findByIDs (st : Storage) (ids : List UUID) : List Stub :=
  ids.filterMap st.findByID

/-- The records filed in the (service, method) bucket. -/
def Storage.bucket (st : Storage) (service method : String) : List Stub :=
  st.items.filter (fun r => r.service == service && r.method == method)

/-- Whether the service bucket exists; by the pruning invariant a service
bucket exists exactly when some record is filed under the service. -/
def Storage.hasService (st : Storage) (service : String) : Bool :=
  st.items.any (fun r => r.service == service)

/-- Modelled from the spec: `findAll` fails with the service-level error if
the service bucket is absent, fails with the method-level error if the
service exists but the method does not, and otherwise returns a copy of the
bucket's records. -/
def Storage.findAll (st : Storage) (service method : String) : Except SErr (List Stub) :=
  if st.hasService service = false then .error .leftNotFound
  else if (st.bucket service method).isEmpty then .error .rightNotFound
  else .ok (st.bucket service method)

/-- Modelled from the spec: `posByN` is a pure existence probe with the same
two-level error semantics as `findAll`, validating a coordinate pair without
materializing records. -/
def Storage.posByN (st : Storage) (service method : String) : Except SErr Nat :=
  if st.hasService service = false then .error .leftNotFound
  else if (st.bucket service method).isEmpty then .error .rightNotFound
  else .ok (st.bucket service method).length

/-- Modelled from the spec: `values` enumerates all stored records. -/
def Storage.values (st : Storage) : List Stub :=
  st.items

instance {ε α : Type} [DecidableEq ε] [DecidableEq α] : DecidableEq (Except ε α) := fun x y =>
  match x, y with
  | .error a, .error b =>
    if h : a = b then isTrue (congrArg Except.error h)
    else isFalse (fun hh => h (Except.error.inj hh))
  | .ok a, .ok b =>
    if h : a = b then isTrue (congrArg Except.ok h)
    else isFalse (fun hh => h (Except.ok.inj hh))
  | .error _, .ok _ => isFalse (fun hh => Except.noConfusion hh)
  | .ok _, .error _ => isFalse (fun hh => Except.noConfusion hh)

/-- The searcher state: the usage-tracking set `stubUsed` of used stub
identifiers (a Go map identifier → presence, modelled as a duplicate-free
list of keys), and the storage. The mutex guarding `stubUsed` has no
sequential content and is not modelled. -/
structure Searcher where
  stubUsed : List UUID
  storage : Storage
deriving DecidableEq

/-- `wrap` translates the two internal storage errors to the two public
not-found errors and returns any other error unchanged. -/
def wrap (e : SErr) : SErr :=
  if e = .leftNotFound then .serviceNotFound
  else if e = .rightNotFound then .methodNotFound
  else e

/-- `findByID` of the searcher: delegate to the storage point lookup. -/
def Searcher.findByID (s : Searcher) (id : UUID) : Option Stub :=
  s.storage.findByID id

/-- `findBy` retrieves all records under the given service and method,
translating storage errors through `wrap`. -/
def Searcher.findBy (s : Searcher) (service method : String) : Except SErr (List Stub) :=
  match s.storage.findAll service method with
  | .error e => .error (wrap e)
  | .ok all => .ok all

/-- `all` returns all records stored in the searcher. -/
def Searcher.all (s : Searcher) : List Stub :=
  s.storage.values

/-- `used` returns all records whose identifier is in the usage-tracking
set. -/
def Searcher.used (s : Searcher) : List Stub :=
  s.storage.findByIDs s.stubUsed

/-- `unused` returns all records whose identifier is not in the
usage-tracking set. -/
def Searcher.unused (s : Searcher) : List Stub :=
  s.all.filter (fun stub => !decide (stub.ID ∈ s.stubUsed))

/-- `mark` marks the given identifier as used; skipped when the query's
internal flag is set. -/
def Searcher.mark (s : Searcher) (q : Query) (id : UUID) : Searcher :=
  if q.RequestInternal then s
  else { s with stubUsed := s.stubUsed.insert id }

/-- `searchByID`: validate the (service, method) pair via `posByN` (mapping
its errors through `wrap`); on success, point-lookup the identifier; if
present, mark it used and return it as the strict match; if absent, fail with
the service-not-found error. The `id` argument is the dereferenced explicit
identifier of the query. -/
def Searcher.searchByID (s : Searcher) (service method : String) (q : Query) (id : UUID) :
    Searcher × Except SErr Result :=
  match s.storage.posByN service method with
  | .error e => (s, .error (wrap e))
  | .ok _ =>
    match s.findByID id with
    | some found => (s.mark q id, .ok { found := some found, similar := none })
    | none => (s, .error .serviceNotFound)

/-- The scan accumulator of `search`: the running strict match and its rank,
and the running most-similar candidate and its rank. -/
structure ScanState where
  found : Option Stub
  foundRank : ℚ
  similar : Option Stub
  similarRank : ℚ

/-- One iteration of the scan loop of `search`: compute the candidate's rank;
update the similar candidate on a strictly greater rank; update the strict
match when the candidate matches the query with a strictly greater rank. -/
def scanStep (m : Matcher) (q : Query) (st : ScanState) (stub : Stub) : ScanState :=
  let current := m.rank q stub
  let st1 :=
    if st.similarRank < current then
      { st with similar := some stub, similarRank := current }
    else st
  if m.isMatch q stub && decide (st.foundRank < current) then
    { st1 with found := some stub, foundRank := current }
  else st1

/-- The scan loop of `search` over the bucket's records, starting from empty
running maxima at rank 0. -/
def scan (m : Matcher) (q : Query) (stubs : List Stub) : ScanState :=
  stubs.foldl (scanStep m q) ⟨none, 0, none, 0⟩

/-- `search`: fetch the bucket via `findBy` (errors wrapped again), scan every
candidate; if a strict match was found, mark it used and return it; otherwise
return the similar candidate, or fail with the stub-not-found error when
neither exists. -/
def Searcher.search (s : Searcher) (m : Matcher) (q : Query) : Searcher × Except SErr Result :=
  match s.findBy q.service q.method with
  | .error e => (s, .error (wrap e))
  | .ok stubs =>
    match (scan m q stubs).found with
    | some found => (s.mark q found.ID, .ok { found := some found, similar := none })
    | none =>
      match (scan m q stubs).similar with
      | none => (s, .error .stubNotFound)
      | some sim => (s, .ok { found := none, similar := some sim })

/-- `find`: if the query carries an explicit identifier, search by identifier;
otherwise search by service and method. -/
def Searcher.find (s : Searcher) (m : Matcher) (q : Query) : Searcher × Except SErr Result :=
  match q.ID with
  | some id => s.searchByID q.service q.method q id
  | none => s.search m q

/-! Concrete instances used to exercise the theorems on closed inputs. -/

/-- Demo record 1 under ("s", "m"). -/
def sA : Stub := ⟨1, "s", "m", 1⟩

/-- Demo record 2 under ("s", "m"). -/
def sB : Stub := ⟨2, "s", "m", 2⟩

/-- Demo record 3 under ("s", "m"). -/
def sC : Stub := ⟨3, "s", "m", 3⟩

/-- Demo record filed under the distinct coordinate ("t", "n"). -/
def sX : Stub := ⟨7, "t", "n", 4⟩

/-- Demo storage holding the four demo records. -/
def store1 : Storage := ⟨[sA, sB, sC, sX]⟩

/-- Demo searcher over `store1` with an empty usage-tracking set. -/
def searcher1 : Searcher := ⟨[], store1⟩

/-- Demo searcher over `store1` with record 1 already marked used. -/
def searcherU : Searcher := ⟨[1], store1⟩

/-- A searcher with empty storage. -/
def searcher0 : Searcher := ⟨[], ⟨[]⟩⟩

/-- A matcher under which only payload 1 matches, but with rank 0, while every
other record ranks 1. -/
def zeroRankMatcher : Matcher :=
  { isMatch := fun _ r => r.payload == 1,
    rank := fun _ r => if r.payload == 1 then 0 else 1 }

/-- A matcher under which only payload 1 matches, and the rank equals the
payload (so a non-matching record can outrank the match). -/
def posMatcher : Matcher :=
  { isMatch := fun _ r => r.payload == 1,
    rank := fun _ r => (r.payload : ℚ) }

/-- A matcher under which nothing matches; payloads 1 and 2 rank 2 (a tie),
payload 3 ranks 1. -/
def noMatchMatcher : Matcher :=
  { isMatch := fun _ _ => false,
    rank := fun _ r => if r.payload == 3 then 1 else 2 }

/-- A matcher under which nothing matches and every rank is 0. -/
def zeroMatcher : Matcher :=
  { isMatch := fun _ _ => false,
    rank := fun _ _ => 0 }

/-- A scan query (no explicit identifier) for ("s", "m"). -/
def qScan : Query := ⟨"s", "m", none, 0, false⟩

/-- An internal scan query for ("s", "m"). -/
def qInt : Query := ⟨"s", "m", none, 0, true⟩

/-- A query for ("s", "m") with explicit identifier 2. -/
def qId2 : Query := ⟨"s", "m", some 2, 0, false⟩

/-- A query for ("s", "m") with explicit identifier 7, which belongs to the
record filed under ("t", "n"). -/
def qId7 : Query := ⟨"s", "m", some 7, 0, false⟩

/-- A query for ("s", "m") with the absent explicit identifier 9. -/
def qId9 : Query := ⟨"s", "m", some 9, 0, false⟩

/-! Lemmas about one step of the scan loop. -/

/-- One scan step either leaves the strict-match component untouched, or
installs the current candidate because it matches with a strictly greater
rank. -/
theorem scanStep_found_cases (m : Matcher) (q : Query) (st : ScanState) (x : Stub) :
    ((scanStep m q st x).found = st.found ∧ (scanStep m q st x).foundRank = st.foundRank) ∨
    (m.isMatch q x = true ∧ st.foundRank < m.rank q x ∧
      (scanStep m q st x).found = some x ∧ (scanStep m q st x).foundRank = m.rank q x) := by
  by_cases hm : m.isMatch q x = true <;>
    by_cases hr : st.foundRank < m.rank q x <;>
      by_cases hs : st.similarRank < m.rank q x <;>
        simp [scanStep, hm, hr, hs]

/-- One scan step either leaves the similar component untouched (the
candidate's rank is not strictly greater), or installs the current candidate
with its rank. -/
theorem scanStep_similar_cases (m : Matcher) (q : Query) (st : ScanState) (x : Stub) :
    ((scanStep m q st x).similar = st.similar ∧
      (scanStep m q st x).similarRank = st.similarRank ∧
      m.rank q x ≤ st.similarRank) ∨
    (st.similarRank < m.rank q x ∧ (scanStep m q st x).similar = some x ∧
      (scanStep m q st x).similarRank = m.rank q x) := by
  by_cases hm : m.isMatch q x = true <;>
    by_cases hr : st.foundRank < m.rank q x <;>
      by_cases hs : st.similarRank < m.rank q x <;>
        simp [scanStep, hm, hr, hs, le_of_not_lt]

/-- A scan step with a matching candidate of strictly greater rank installs
that candidate as the strict match. -/
theorem scanStep_found_update (m : Matcher) (q : Query) (st : ScanState) (x : Stub)
    (hm : m.isMatch q x = true) (hr : st.foundRank < m.rank q x) :
    (scanStep m q st x).found = some x := by
  by_cases hs : st.similarRank < m.rank q x <;> simp [scanStep, hm, hr, hs]

/-! Lemmas about the scan loop as a whole. -/

/-- Once the scan has a strict match, it keeps one. -/
theorem foldl_scanStep_found_isSome (m : Matcher) (q : Query) :
    ∀ (l : List Stub) (st : ScanState), st.found.isSome = true →
      (l.foldl (scanStep m q) st).found.isSome = true := by
  intro l
  induction l with
  | nil => intro st h; simpa using h
  | cons x xs ih =>
    intro st h
    rw [List.foldl_cons]
    apply ih
    rcases scanStep_found_cases m q st x with ⟨h1, _⟩ | ⟨_, _, h1, _⟩ <;> rw [h1]
    · exact h
    · rfl

/-- The strict match produced by the scan is either inherited from the start
state or an element of the scanned list. -/
theorem foldl_scanStep_found_mem (m : Matcher) (q : Query) :
    ∀ (l : List Stub) (st : ScanState) (r : Stub),
      (l.foldl (scanStep m q) st).found = some r →
      st.found = some r ∨ r ∈ l := by
  intro l
  induction l with
  | nil => intro st r h; exact Or.inl h
  | cons x xs ih =>
    intro st r h
    rw [List.foldl_cons] at h
    rcases ih (scanStep m q st x) r h with h2 | h2
    · rcases scanStep_found_cases m q st x with ⟨h1, _⟩ | ⟨_, _, h1, _⟩
      · exact Or.inl (h1 ▸ h2)
      · rw [h1] at h2
        exact Or.inr (by simp [Option.some.inj h2])
    · exact Or.inr (List.mem_cons_of_mem x h2)

/-- The strict match produced by the scan is either inherited from the start
state, or it matches the query with a rank strictly above the start state's
running strict-match rank. -/
theorem foldl_scanStep_found_match (m : Matcher) (q : Query) :
    ∀ (l : List Stub) (st : ScanState) (r : Stub),
      (l.foldl (scanStep m q) st).found = some r →
      st.found = some r ∨ (m.isMatch q r = true ∧ st.foundRank < m.rank q r) := by
  intro l
  induction l with
  | nil => intro st r h; exact Or.inl h
  | cons x xs ih =>
    intro st r h
    rw [List.foldl_cons] at h
    rcases scanStep_found_cases m q st x with ⟨h1, h2⟩ | ⟨hm, hr, h1, h2⟩
    · rcases ih (scanStep m q st x) r h with h3 | h3
      · exact Or.inl (h1 ▸ h3)
      · exact Or.inr (h2 ▸ h3)
    · rcases ih (scanStep m q st x) r h with h3 | h3
      · rw [h1] at h3
        rcases Option.some.inj h3 with rfl
        exact Or.inr ⟨hm, hr⟩
      · rcases h3 with ⟨hm2, hr2⟩
        rw [h2] at hr2
        exact Or.inr ⟨hm2, lt_trans hr hr2⟩

/-- If some element of the scanned list matches the query with a rank above
the start state's running strict-match rank, the scan ends with a strict
match. -/
theorem foldl_scanStep_found_exists (m : Matcher) (q : Query) :
    ∀ (l : List Stub) (st : ScanState) (x : Stub),
      x ∈ l → m.isMatch q x = true → st.foundRank < m.rank q x →
      (l.foldl (scanStep m q) st).found.isSome = true := by
  intro l
  induction l with
  | nil => intro st x hx; cases hx
  | cons y ys ih =>
    intro st x hx hm hr
    rw [List.foldl_cons]
    rcases List.mem_cons.1 hx with rfl | hx2
    · apply foldl_scanStep_found_isSome
      rw [scanStep_found_update m q st x hm hr]
      rfl
    · rcases scanStep_found_cases m q st y with ⟨_, h2⟩ | ⟨_, _, h1, _⟩
      · exact ih (scanStep m q st y) x hx2 hm (h2 ▸ hr)
      · apply foldl_scanStep_found_isSome
        rw [h1]
        rfl

/-- If no element of the scanned list can trigger a strict-match update — each
either does not match or does not rank above the start state's running
strict-match rank — the strict-match component comes out unchanged. -/
theorem foldl_scanStep_found_frame (m : Matcher) (q : Query) :
    ∀ (l : List Stub) (st : ScanState),
      (∀ x ∈ l, m.isMatch q x = false ∨ m.rank q x ≤ st.foundRank) →
      (l.foldl (scanStep m q) st).found = st.found ∧
      (l.foldl (scanStep m q) st).foundRank = st.foundRank := by
  intro l
  induction l with
  | nil => intro st _; exact ⟨rfl, rfl⟩
  | cons x xs ih =>
    intro st h
    rw [List.foldl_cons]
    rcases scanStep_found_cases m q st x with ⟨h1, h2⟩ | ⟨hm, hr, _, _⟩
    · have := ih (scanStep m q st x) (fun y hy => by
        rcases h y (List.mem_cons_of_mem x hy) with h3 | h3
        · exact Or.inl h3
        · exact Or.inr (h2 ▸ h3))
      exact ⟨h1 ▸ this.1, h2 ▸ this.2⟩
    · rcases h x (List.mem_cons_self x xs) with h3 | h3
      · rw [hm] at h3; cases h3
      · exact absurd hr (not_lt_of_le h3)

/-- Full characterization of the similar component of the scan: either no
candidate ranked strictly above the start state's running similar rank and the
component is unchanged, or the list splits around the first candidate
attaining the maximum rank — every earlier candidate ranks strictly below it,
every later one ranks no higher. -/
theorem foldl_scanStep_similar_spec (m : Matcher) (q : Query) :
    ∀ (l : List Stub) (st : ScanState),
      ((l.foldl (scanStep m q) st).similar = st.similar ∧
       (l.foldl (scanStep m q) st).similarRank = st.similarRank ∧
       ∀ x ∈ l, m.rank q x ≤ st.similarRank) ∨
      (∃ l1 r l2, l = l1 ++ r :: l2 ∧
        (l.foldl (scanStep m q) st).similar = some r ∧
        (l.foldl (scanStep m q) st).similarRank = m.rank q r ∧
        st.similarRank < m.rank q r ∧
        (∀ y ∈ l1, m.rank q y < m.rank q r) ∧
        (∀ y ∈ l2, m.rank q y ≤ m.rank q r)) := by
  intro l
  induction l with
  | nil => intro st; exact Or.inl ⟨rfl, rfl, by simp⟩
  | cons x xs ih =>
    intro st
    rw [List.foldl_cons]
    rcases scanStep_similar_cases m q st x with ⟨h1, h2, h3⟩ | ⟨h1, h2, h3⟩
    · rcases ih (scanStep m q st x) with ⟨g1, g2, g3⟩ | ⟨l1, r, l2, g0, g1, g2, g3, g4, g5⟩
      · refine Or.inl ⟨h1 ▸ g1, h2 ▸ g2, ?_⟩
        intro y hy
        rcases List.mem_cons.1 hy with rfl | hy2
        · exact h3
        · exact h2 ▸ g3 y hy2
      · refine Or.inr ⟨x :: l1, r, l2, by rw [g0]; rfl, g1, g2, h2 ▸ g3, ?_, g5⟩
        intro y hy
        rcases List.mem_cons.1 hy with rfl | hy2
        · exact lt_of_le_of_lt h3 (h2 ▸ g3)
        · exact g4 y hy2
    · rcases ih (scanStep m q st x) with ⟨g1, g2, g3⟩ | ⟨l1, r, l2, g0, g1, g2, g3, g4, g5⟩
      · refine Or.inr ⟨[], x, xs, rfl, h2 ▸ g1, ?_, h1, by simp, ?_⟩
        · rw [g2, h3]
        · intro y hy
          exact h3 ▸ g3 y hy
      · refine Or.inr ⟨x :: l1, r, l2, by rw [g0]; rfl, g1, g2, lt_trans h1 (h3 ▸ g3), ?_, g5⟩
        intro y hy
        rcases List.mem_cons.1 hy with rfl | hy2
        · exact h3 ▸ g3
        · exact g4 y hy2

/-! Computation lemmas for the searcher operations. -/

/-- A query without an explicit identifier is resolved by the scan branch. -/
theorem find_eq_search (s : Searcher) (m : Matcher) (q : Query) (h : q.ID = none) :
    s.find m q = s.search m q := by
  simp [Searcher.find, h]

/-- A query with an explicit identifier is resolved by the identifier
branch. -/
theorem find_eq_searchByID (s : Searcher) (m : Matcher) (q : Query) (id : UUID)
    (h : q.ID = some id) :
    s.find m q = s.searchByID q.service q.method q id := by
  simp [Searcher.find, h]

/-- `search` on a resolved bucket with a scan strict match marks it used and
returns it alone. -/
theorem search_eq_of_found (s : Searcher) (m : Matcher) (q : Query) (stubs : List Stub)
    (f : Stub) (hfb : s.findBy q.service q.method = .ok stubs)
    (hf : (scan m q stubs).found = some f) :
    s.search m q = (s.mark q f.ID, .ok { found := some f, similar := none }) := by
  simp [Searcher.search, hfb, hf]

/-- `search` on a resolved bucket with no scan strict match returns the
similar candidate when one exists. -/
theorem search_eq_of_similar (s : Searcher) (m : Matcher) (q : Query) (stubs : List Stub)
    (r : Stub) (hfb : s.findBy q.service q.method = .ok stubs)
    (hf : (scan m q stubs).found = none) (hs : (scan m q stubs).similar = some r) :
    s.search m q = (s, .ok { found := none, similar := some r }) := by
  simp [Searcher.search, hfb, hf, hs]

/-- `search` on a resolved bucket with neither a scan strict match nor a
similar candidate fails with the stub-not-found error. -/
theorem search_eq_of_neither (s : Searcher) (m : Matcher) (q : Query) (stubs : List Stub)
    (hfb : s.findBy q.service q.method = .ok stubs)
    (hf : (scan m q stubs).found = none) (hs : (scan m q stubs).similar = none) :
    s.search m q = (s, .error .stubNotFound) := by
  simp [Searcher.search, hfb, hf, hs]

/-- A successful `findBy` returns the nonempty (service, method) bucket. -/
theorem findBy_ok (s : Searcher) (service method : String) (stubs : List Stub)
    (h : s.findBy service method = .ok stubs) :
    stubs = s.storage.bucket service method ∧ stubs ≠ [] := by
  unfold Searcher.findBy Storage.findAll at h
  by_cases h1 : s.storage.hasService service = false
  · simp [h1] at h
  · by_cases h2 : (s.storage.bucket service method).isEmpty
    · simp [h1, h2] at h
    · simp [h1, h2] at h
      refine ⟨h.symm, fun hnil => h2 ?_⟩
      rw [h, hnil]
      rfl

/-- Every record of a bucket is a stored record. -/
theorem bucket_subset (st : Storage) (service method : String) (x : Stub)
    (h : x ∈ st.bucket service method) : x ∈ st.items :=
  List.mem_of_mem_filter h

/-- A successful point lookup returns a stored record carrying the looked-up
identifier. -/
theorem findByID_some (st : Storage) (id : UUID) (r : Stub)
    (h : st.findByID id = some r) : r ∈ st.items ∧ r.ID = id := by
  unfold Storage.findByID at h
  refine ⟨List.mem_of_find?_eq_some h, ?_⟩
  have := List.find?_some h
  simpa using this

/-- Over a store with no duplicate identifiers, the point lookup of a stored
record's identifier returns that record. -/
theorem find?_ID_eq_some (l : List Stub) (r : Stub)
    (hnd : (l.map Stub.ID).Nodup) (hr : r ∈ l) :
    l.find? (fun x => x.ID == r.ID) = some r := by
  induction l with
  | nil => cases hr
  | cons y ys ih =>
    have hnd2 : (ys.map Stub.ID).Nodup := (List.nodup_cons.1 (by simpa using hnd)).2
    have hy : y.ID ∉ ys.map Stub.ID := (List.nodup_cons.1 (by simpa using hnd)).1
    rcases List.mem_cons.1 hr with rfl | hr2
    · rw [List.find?_cons_of_pos]
      simp
    · have hne : (y.ID == r.ID) = false := by
        simp only [beq_eq_false_iff_ne, ne_eq]
        exact fun h => hy (h ▸ List.mem_map_of_mem Stub.ID hr2)
      rw [List.find?_cons_of_neg _ (by simp [hne])]
      exact ih hnd2 hr2

/-- Membership in `used`: over a store with no duplicate identifiers, a
record is in `used` exactly when it is stored and its identifier is in the
usage-tracking set. -/
theorem mem_used_iff (s : Searcher) (hnd : (s.storage.items.map Stub.ID).Nodup) (r : Stub) :
    r ∈ s.used ↔ r ∈ s.storage.items ∧ r.ID ∈ s.stubUsed := by
  unfold Searcher.used Storage.findByIDs
  rw [List.mem_filterMap]
  constructor
  · rintro ⟨id, hid, hfind⟩
    obtain ⟨hmem, hID⟩ := findByID_some _ _ _ hfind
    exact ⟨hmem, hID ▸ hid⟩
  · rintro ⟨hmem, hid⟩
    refine ⟨r.ID, hid, ?_⟩
    unfold Storage.findByID
    exact find?_ID_eq_some _ _ hnd hmem

/-- Membership in `unused`: a record is in `unused` exactly when it is stored
and its identifier is not in the usage-tracking set. -/
theorem mem_unused_iff (s : Searcher) (r : Stub) :
    r ∈ s.unused ↔ r ∈ s.storage.items ∧ r.ID ∉ s.stubUsed := by
  unfold Searcher.unused Searcher.all Storage.values
  rw [List.mem_filter]
  simp

/-- `mark` never touches the storage. -/
theorem mark_storage (s : Searcher) (q : Query) (id : UUID) :
    (s.mark q id).storage = s.storage := by
  unfold Searcher.mark
  by_cases h : q.RequestInternal <;> simp [h]

/-- `mark` on a non-internal query inserts the identifier into the
usage-tracking set. -/
theorem mark_not_internal (s : Searcher) (q : Query) (id : UUID)
    (h : q.RequestInternal = false) :
    (s.mark q id).stubUsed = s.stubUsed.insert id := by
  simp [Searcher.mark, h]

/-- `mark` on an internal query is a no-op. -/
theorem mark_internal (s : Searcher) (q : Query) (id : UUID)
    (h : q.RequestInternal = true) : s.mark q id = s := by
  simp [Searcher.mark, h]

/-- `find` leaves the searcher state unchanged except possibly for a `mark`
of the returned strict match's identifier. -/
theorem find_fst_cases (s : Searcher) (m : Matcher) (q : Query) :
    (s.find m q).1 = s ∨ ∃ id, (s.find m q).1 = s.mark q id := by
  unfold Searcher.find
  cases hq : q.ID with
  | some id =>
    unfold Searcher.searchByID
    cases hpos : s.storage.posByN q.service q.method with
    | error e => simp
    | ok n =>
      cases hfind : s.findByID id with
      | some f => exact Or.inr ⟨id, by simp [hfind]⟩
      | none => simp [hfind]
  | none =>
    unfold Searcher.search
    cases hfb : s.findBy q.service q.method with
    | error e => simp
    | ok stubs =>
      cases hf : (scan m q stubs).found with
      | some f => exact Or.inr ⟨f.ID, by simp [hf]⟩
      | none =>
        cases hs : (scan m q stubs).similar with
        | some r => simp [hf, hs]
        | none => simp [hf, hs]

/-- `find` on an internal query leaves the searcher state unchanged. -/
theorem find_internal_fst (s : Searcher) (m : Matcher) (q : Query)
    (h : q.RequestInternal = true) : (s.find m q).1 = s := by
  rcases find_fst_cases s m q with h1 | ⟨id, h1⟩
  · exact h1
  · rw [h1, mark_internal s q id h]

/-- A fold of `find` over internal queries leaves the searcher state
unchanged. -/
theorem foldl_find_internal (m : Matcher) :
    ∀ (qs : List Query) (s : Searcher), (∀ q ∈ qs, q.RequestInternal = true) →
      qs.foldl (fun t q => (t.find m q).1) s = s := by
  intro qs
  induction qs with
  | nil => intro s _; rfl
  | cons q qt ih =>
    intro s h
    rw [List.foldl_cons, find_internal_fst s m q (h q (List.mem_cons_self q qt))]
    exact ih s (fun p hp => h p (List.mem_cons_of_mem q hp))

/-- `searchByID` with a valid coordinate pair and a present identifier marks
the identifier used and returns the record as the strict match. -/
theorem searchByID_eq_of_some (s : Searcher) (service method : String) (q : Query)
    (id : UUID) (n : Nat) (f : Stub)
    (hpos : s.storage.posByN service method = .ok n) (hf : s.findByID id = some f) :
    s.searchByID service method q id = (s.mark q id, .ok { found := some f, similar := none }) := by
  simp [Searcher.searchByID, hpos, hf]

/-- `searchByID` with a valid coordinate pair and an absent identifier fails
with the service-not-found error. -/
theorem searchByID_eq_of_none (s : Searcher) (service method : String) (q : Query)
    (id : UUID) (n : Nat)
    (hpos : s.storage.posByN service method = .ok n) (hf : s.findByID id = none) :
    s.searchByID service method q id = (s, .error .serviceNotFound) := by
  simp [Searcher.searchByID, hpos, hf]

/-- `searchByID` with an invalid coordinate pair returns the wrapped probe
error. -/
theorem searchByID_eq_of_error (s : Searcher) (service method : String) (q : Query)
    (id : UUID) (e : SErr) (hpos : s.storage.posByN service method = .error e) :
    s.searchByID service method q id = (s, .error (wrap e)) := by
  simp [Searcher.searchByID, hpos]

/-- `search` on a failed bucket fetch returns the (re-)wrapped error. -/
theorem search_eq_of_error (s : Searcher) (m : Matcher) (q : Query) (e : SErr)
    (hfb : s.findBy q.service q.method = .error e) :
    s.search m q = (s, .error (wrap e)) := by
  simp [Searcher.search, hfb]

/-- `wrap` never outputs either internal storage error. -/
theorem wrap_ne_internal (e : SErr) :
    wrap e ≠ .leftNotFound ∧ wrap e ≠ .rightNotFound := by
  cases e <;> simp [wrap]

/-- An error returned by `findBy` is never one of the internal storage
errors. -/
theorem findBy_error_ne (s : Searcher) (service method : String) (e : SErr)
    (h : s.findBy service method = .error e) :
    e ≠ .leftNotFound ∧ e ≠ .rightNotFound := by
  unfold Searcher.findBy at h
  cases hfa : s.storage.findAll service method with
  | error e0 =>
    rw [hfa] at h
    have h2 := Except.error.inj h
    rw [← h2]
    exact wrap_ne_internal e0
  | ok l =>
    rw [hfa] at h
    simp at h

/-- An error returned by `find` is never one of the internal storage
errors. -/
theorem find_error (s : Searcher) (m : Matcher) (q : Query) (s' : Searcher) (e : SErr)
    (h : s.find m q = (s', .error e)) :
    e ≠ .leftNotFound ∧ e ≠ .rightNotFound := by
  cases hq : q.ID with
  | some id =>
    rw [find_eq_searchByID s m q id hq] at h
    cases hpos : s.storage.posByN q.service q.method with
    | error e0 =>
      rw [searchByID_eq_of_error s q.service q.method q id e0 hpos] at h
      have h2 := Except.error.inj (congrArg Prod.snd h)
      rw [← h2]
      exact wrap_ne_internal e0
    | ok n =>
      cases hfind : s.findByID id with
      | some f =>
        rw [searchByID_eq_of_some s q.service q.method q id n f hpos hfind] at h
        have h2 := congrArg Prod.snd h
        simp at h2
      | none =>
        rw [searchByID_eq_of_none s q.service q.method q id n hpos hfind] at h
        have h2 := Except.error.inj (congrArg Prod.snd h)
        rw [← h2]
        exact ⟨by decide, by decide⟩
  | none =>
    rw [find_eq_search s m q hq] at h
    cases hfb : s.findBy q.service q.method with
    | error e0 =>
      rw [search_eq_of_error s m q e0 hfb] at h
      have h2 := Except.error.inj (congrArg Prod.snd h)
      rw [← h2]
      exact wrap_ne_internal e0
    | ok stubs =>
      cases hf : (scan m q stubs).found with
      | some f =>
        rw [search_eq_of_found s m q stubs f hfb hf] at h
        have h2 := congrArg Prod.snd h
        simp at h2
      | none =>
        cases hs : (scan m q stubs).similar with
        | some r =>
          rw [search_eq_of_similar s m q stubs r hfb hf hs] at h
          have h2 := congrArg Prod.snd h
          simp at h2
        | none =>
          rw [search_eq_of_neither s m q stubs hfb hf hs] at h
          have h2 := Except.error.inj (congrArg Prod.snd h)
          rw [← h2]
          exact ⟨by decide, by decide⟩

/-- A successful `find` whose result carries a strict match got it from the
store, and the final searcher is the input searcher with that record's
identifier marked. -/
theorem find_ok_found (s : Searcher) (m : Matcher) (q : Query) (s' : Searcher)
    (res : Result) (r : Stub)
    (hfind : s.find m q = (s', .ok res)) (hr : res.found = some r) :
    s' = s.mark q r.ID ∧ r ∈ s.storage.items := by
  cases hq : q.ID with
  | some id =>
    rw [find_eq_searchByID s m q id hq] at hfind
    cases hpos : s.storage.posByN q.service q.method with
    | error e0 =>
      rw [searchByID_eq_of_error s q.service q.method q id e0 hpos] at hfind
      have h2 := congrArg Prod.snd hfind
      simp at h2
    | ok n =>
      cases hfbid : s.findByID id with
      | none =>
        rw [searchByID_eq_of_none s q.service q.method q id n hpos hfbid] at hfind
        have h2 := congrArg Prod.snd hfind
        simp at h2
      | some f =>
        rw [searchByID_eq_of_some s q.service q.method q id n f hpos hfbid] at hfind
        have h1 : s.mark q id = s' := congrArg Prod.fst hfind
        have h2 := Except.ok.inj (congrArg Prod.snd hfind)
        have hfr : f = r := by
          have := congrArg Result.found h2
          rw [hr] at this
          exact Option.some.inj this
        obtain ⟨hmem, hID⟩ := findByID_some s.storage id f
          (by unfold Searcher.findByID at hfbid; exact hfbid)
        subst hfr
        refine ⟨?_, hmem⟩
        rw [hID]
        exact h1.symm
  | none =>
    rw [find_eq_search s m q hq] at hfind
    cases hfb : s.findBy q.service q.method with
    | error e0 =>
      rw [search_eq_of_error s m q e0 hfb] at hfind
      have h2 := congrArg Prod.snd hfind
      simp at h2
    | ok stubs =>
      cases hf : (scan m q stubs).found with
      | some f =>
        rw [search_eq_of_found s m q stubs f hfb hf] at hfind
        have h1 : s.mark q f.ID = s' := congrArg Prod.fst hfind
        have h2 := Except.ok.inj (congrArg Prod.snd hfind)
        have hfr : f = r := by
          have := congrArg Result.found h2
          rw [hr] at this
          exact Option.some.inj this
        have hmem : f ∈ stubs := by
          rcases foldl_scanStep_found_mem m q stubs ⟨none, 0, none, 0⟩ f hf with h3 | h3
          · simp at h3
          · exact h3
        have hitems : f ∈ s.storage.items :=
          bucket_subset s.storage q.service q.method f
            ((findBy_ok s q.service q.method stubs hfb).1 ▸ hmem)
        subst hfr
        exact ⟨h1.symm, hitems⟩
      | none =>
        cases hs : (scan m q stubs).similar with
        | some sim =>
          rw [search_eq_of_similar s m q stubs sim hfb hf hs] at hfind
          have h2 := Except.ok.inj (congrArg Prod.snd hfind)
          have := congrArg Result.found h2
          rw [hr] at this
          simp at this
        | none =>
          rw [search_eq_of_neither s m q stubs hfb hf hs] at hfind
          have h2 := congrArg Prod.snd hfind
          simp at h2

/-- With every candidate ranked at most 0, the scan selects nothing and
`find` fails with the stub-not-found error. -/
theorem find_stub_not_found_of_low (s : Searcher) (m : Matcher) (q : Query)
    (stubs : List Stub) (hid : q.ID = none)
    (hfb : s.findBy q.service q.method = .ok stubs)
    (hall : ∀ x ∈ stubs, m.rank q x ≤ 0) :
    s.find m q = (s, .error .stubNotFound) := by
  have hfound := foldl_scanStep_found_frame m q stubs ⟨none, 0, none, 0⟩
    (fun x hx => Or.inr (hall x hx))
  have hsim : (scan m q stubs).similar = none := by
    rcases foldl_scanStep_similar_spec m q stubs ⟨none, 0, none, 0⟩ with ⟨g1, _, _⟩ |
      ⟨l1, r, l2, g0, _, _, g3, _, _⟩
    · exact g1
    · exact absurd g3 (not_lt_of_le (hall r (by rw [g0]; simp)))
  rw [find_eq_search s m q hid]
  exact search_eq_of_neither s m q stubs hfb hfound.1 hsim

/-! The claims. -/

/-- C1 (amended): for every query without an explicit identifier whose
(service, method) bucket resolves successfully, if at least one candidate in
the bucket strictly matches the query with a strictly positive similarity
score, `find` returns a strict match in the Result's found field and leaves
the similar field empty, even when some non-matching candidate has a strictly
higher similarity score than the returned match. -/
theorem find_returns_strict_match (s : Searcher) (m : Matcher) (q : Query)
    (stubs : List Stub) (hid : q.ID = none)
    (hfb : s.findBy q.service q.method = .ok stubs)
    (hex : ∃ x ∈ stubs, m.isMatch q x = true ∧ 0 < m.rank q x) :
    ∃ r, r ∈ stubs ∧ m.isMatch q r = true ∧
      s.find m q = (s.mark q r.ID, .ok { found := some r, similar := none }) := by
  obtain ⟨x, hx, hm, hrk⟩ := hex
  have hsome : ((scan m q stubs).found).isSome = true :=
    foldl_scanStep_found_exists m q stubs ⟨none, 0, none, 0⟩ x hx hm hrk
  obtain ⟨f, hf⟩ := Option.isSome_iff_exists.1 hsome
  refine ⟨f, ?_, ?_, ?_⟩
  · rcases foldl_scanStep_found_mem m q stubs ⟨none, 0, none, 0⟩ f hf with h | h
    · simp at h
    · exact h
  · rcases foldl_scanStep_found_match m q stubs ⟨none, 0, none, 0⟩ f hf with h | h
    · simp at h
    · exact h.1
  · rw [find_eq_search s m q hid]
    exact search_eq_of_found s m q stubs f hfb hf

/-- C1 counterexample: in the ("s", "m") bucket of `searcher1`, the record
`sA` strictly matches the query under `zeroRankMatcher`, yet `find` returns a
Result with the found field empty and a similar candidate instead — because
`sA`'s similarity score is 0. -/
theorem find_returns_strict_match_counterexample :
    searcher1.findBy "s" "m" = .ok [sA, sB, sC] ∧
    sA ∈ [sA, sB, sC] ∧ zeroRankMatcher.isMatch qScan sA = true ∧
    (searcher1.find zeroRankMatcher qScan).2 =
      .ok { found := none, similar := some sB } := by
  decide

/-- C1 witness: under `posMatcher`, `sA` strictly matches with positive score
while the non-matching `sB` and `sC` score higher; `find` still returns a
strict match with the similar field empty. -/
theorem find_returns_strict_match_witness :
    ∃ r, r ∈ [sA, sB, sC] ∧ posMatcher.isMatch qScan r = true ∧
      searcher1.find posMatcher qScan =
        (searcher1.mark qScan r.ID, .ok { found := some r, similar := none }) :=
  find_returns_strict_match searcher1 posMatcher qScan [sA, sB, sC] (by decide) (by decide)
    ⟨sA, by decide, by decide, by decide⟩

/-- C2: for every query without an explicit identifier whose bucket resolves
successfully, (a) if every candidate is non-matching with positive score,
`find` returns found empty and the first-encountered highest-scoring
candidate as similar; (b) if every candidate scores at most 0 — so neither a
strict match nor any closest candidate exists — `find` fails with the
stub-not-found error. -/
theorem find_similar_only_or_stub_not_found (s : Searcher) (m : Matcher) (q : Query)
    (stubs : List Stub) (hid : q.ID = none)
    (hfb : s.findBy q.service q.method = .ok stubs) :
    ((∀ x ∈ stubs, m.isMatch q x = false ∧ 0 < m.rank q x) →
      ∃ l1 r l2, stubs = l1 ++ r :: l2 ∧
        s.find m q = (s, .ok { found := none, similar := some r }) ∧
        (∀ y ∈ l1, m.rank q y < m.rank q r) ∧
        (∀ y ∈ l2, m.rank q y ≤ m.rank q r)) ∧
    ((∀ x ∈ stubs, m.rank q x ≤ 0) →
      s.find m q = (s, .error .stubNotFound)) := by
  constructor
  · intro hall
    have hfound := foldl_scanStep_found_frame m q stubs ⟨none, 0, none, 0⟩
      (fun x hx => Or.inl (hall x hx).1)
    rcases foldl_scanStep_similar_spec m q stubs ⟨none, 0, none, 0⟩ with ⟨_, _, g3⟩ |
      ⟨l1, r, l2, g0, g1, _, _, g4, g5⟩
    · obtain ⟨x, hx⟩ :=
        List.exists_mem_of_ne_nil stubs (findBy_ok s q.service q.method stubs hfb).2
      exact absurd (g3 x hx) (not_le_of_lt (hall x hx).2)
    · refine ⟨l1, r, l2, g0, ?_, g4, g5⟩
      rw [find_eq_search s m q hid]
      exact search_eq_of_similar s m q stubs r hfb hfound.1 g1
  · intro hall
    exact find_stub_not_found_of_low s m q stubs hid hfb hall

/-- C2 witness: under `noMatchMatcher` nothing matches, `sA` and `sB` tie at
score 2 and `sC` scores 1; `find` returns no strict match and the
first-encountered maximum `sA` as similar. -/
theorem find_similar_only_or_stub_not_found_witness :
    ∃ l1 r l2, [sA, sB, sC] = l1 ++ r :: l2 ∧
      searcher1.find noMatchMatcher qScan =
        (searcher1, .ok { found := none, similar := some r }) ∧
      (∀ y ∈ l1, noMatchMatcher.rank qScan y < noMatchMatcher.rank qScan r) ∧
      (∀ y ∈ l2, noMatchMatcher.rank qScan y ≤ noMatchMatcher.rank qScan r) :=
  (find_similar_only_or_stub_not_found searcher1 noMatchMatcher qScan [sA, sB, sC]
    (by decide) (by decide)).1 (by decide)

/-- C3: for every query carrying an explicit identifier whose (service,
method) pair exists in the index, if the identifier is absent from the store
`find` fails with the service-not-found error (there is no distinct
identifier-not-found error kind), and if it is present `find` returns the
record as the strict match and inserts the identifier into the usage set
unless the query is internal. -/
theorem find_by_id_semantics (s : Searcher) (m : Matcher) (q : Query) (id : UUID) (n : Nat)
    (hid : q.ID = some id)
    (hpos : s.storage.posByN q.service q.method = .ok n) :
    (s.findByID id = none → s.find m q = (s, .error .serviceNotFound)) ∧
    (∀ r, s.findByID id = some r →
      s.find m q = (s.mark q id, .ok { found := some r, similar := none }) ∧
      (q.RequestInternal = false → id ∈ (s.find m q).1.stubUsed)) := by
  constructor
  · intro h
    rw [find_eq_searchByID s m q id hid]
    exact searchByID_eq_of_none s q.service q.method q id n hpos h
  · intro r h
    have hfind : s.find m q = (s.mark q id, .ok { found := some r, similar := none }) := by
      rw [find_eq_searchByID s m q id hid]
      exact searchByID_eq_of_some s q.service q.method q id n r hpos h
    refine ⟨hfind, fun hint => ?_⟩
    rw [hfind]
    show id ∈ (s.mark q id).stubUsed
    rw [mark_not_internal s q id hint]
    exact List.mem_insert_self id s.stubUsed

/-- C3 witness: the identifier 2 is present, so `find` returns `sB` as the
strict match and marks 2 used. -/
theorem find_by_id_semantics_witness :
    searcher1.find posMatcher qId2 =
      (searcher1.mark qId2 2, .ok { found := some sB, similar := none }) ∧
    2 ∈ (searcher1.find posMatcher qId2).1.stubUsed :=
  have h := (find_by_id_semantics searcher1 posMatcher qId2 2 3
    (by decide) (by decide)).2 sB (by decide)
  ⟨h.1, h.2 (by decide)⟩

/-- C4: `wrap` maps the internal service-bucket-absent error to the public
ServiceNotFound error and the internal method-bucket-absent error to the
public MethodNotFound error, passes any other error through unchanged, and
neither internal error value is ever returned by `findBy` or `find`. -/
theorem wrap_error_translation :
    wrap .leftNotFound = .serviceNotFound ∧
    wrap .rightNotFound = .methodNotFound ∧
    (∀ e, e ≠ .leftNotFound → e ≠ .rightNotFound → wrap e = e) ∧
    (∀ (s : Searcher) (service method : String) (e : SErr),
      s.findBy service method = .error e → e ≠ .leftNotFound ∧ e ≠ .rightNotFound) ∧
    (∀ (s : Searcher) (m : Matcher) (q : Query) (s' : Searcher) (e : SErr),
      s.find m q = (s', .error e) → e ≠ .leftNotFound ∧ e ≠ .rightNotFound) := by
  refine ⟨by decide, by decide, ?_, ?_, ?_⟩
  · intro e h1 h2
    unfold wrap
    rw [if_neg h1, if_neg h2]
  · intro s service method e h
    exact findBy_error_ne s service method e h
  · intro s m q s' e h
    exact find_error s m q s' e h

/-- C4 witness: a collaborator error passes through `wrap` unchanged; the
errors surfaced by `findBy` on an unknown service and by `find` on an
unmatched bucket are the public kinds, not the internal ones. -/
theorem wrap_error_translation_witness :
    wrap (.other "boom") = .other "boom" ∧
    (SErr.serviceNotFound ≠ SErr.leftNotFound ∧ SErr.serviceNotFound ≠ SErr.rightNotFound) ∧
    (SErr.stubNotFound ≠ SErr.leftNotFound ∧ SErr.stubNotFound ≠ SErr.rightNotFound) :=
  have h := wrap_error_translation
  ⟨h.2.2.1 (.other "boom") (by decide) (by decide),
   h.2.2.2.1 searcher0 "a" "b" .serviceNotFound (by decide),
   h.2.2.2.2 searcher1 zeroMatcher qScan searcher1 .stubNotFound (by decide)⟩

/-- C5: every record returned as a strict match to a non-internal query has
its identifier in the usage-tracking set afterwards, so (over a store with no
duplicate identifiers) it appears in `used` and not in `unused`. -/
theorem find_marks_strict_match_used (s : Searcher) (m : Matcher) (q : Query)
    (s' : Searcher) (res : Result) (r : Stub)
    (hnd : (s.storage.items.map Stub.ID).Nodup)
    (hint : q.RequestInternal = false)
    (hfind : s.find m q = (s', .ok res))
    (hr : res.found = some r) :
    r.ID ∈ s'.stubUsed ∧ r ∈ s'.used ∧ r ∉ s'.unused := by
  obtain ⟨hs', hmem⟩ := find_ok_found s m q s' res r hfind hr
  have hst : s'.storage = s.storage := by rw [hs']; exact mark_storage s q r.ID
  have husd : s'.stubUsed = s.stubUsed.insert r.ID := by
    rw [hs']; exact mark_not_internal s q r.ID hint
  have hidmem : r.ID ∈ s'.stubUsed := by
    rw [husd]; exact List.mem_insert_self r.ID s.stubUsed
  have hnd' : (s'.storage.items.map Stub.ID).Nodup := by rw [hst]; exact hnd
  refine ⟨hidmem, ?_, ?_⟩
  · exact (mem_used_iff s' hnd' r).2 ⟨by rw [hst]; exact hmem, hidmem⟩
  · intro hcon
    exact ((mem_unused_iff s' r).1 hcon).2 hidmem

/-- C5 witness: the scan on `posMatcher` returns `sA` as a strict match to a
non-internal query, after which `sA` is in `used` and not in `unused`. -/
theorem find_marks_strict_match_used_witness :
    sA.ID ∈ searcherU.stubUsed ∧ sA ∈ searcherU.used ∧ sA ∉ searcherU.unused :=
  find_marks_strict_match_used searcher1 posMatcher qScan searcherU
    { found := some sA, similar := none } sA (by decide) (by decide) (by decide) (by decide)

/-- C6: a sequence of `find` calls whose queries are all internal leaves the
usage-tracking set unchanged, so `used` and `unused` return the same
partitions before and after. -/
theorem find_internal_preserves_usage (s : Searcher) (m : Matcher) (qs : List Query)
    (h : ∀ q ∈ qs, q.RequestInternal = true) :
    (qs.foldl (fun t q => (t.find m q).1) s).stubUsed = s.stubUsed ∧
    (qs.foldl (fun t q => (t.find m q).1) s).used = s.used ∧
    (qs.foldl (fun t q => (t.find m q).1) s).unused = s.unused := by
  rw [foldl_find_internal m qs s h]
  exact ⟨rfl, rfl, rfl⟩

/-- C6 witness: one internal `find` call on `searcher1` leaves `stubUsed`,
`used` and `unused` unchanged. -/
theorem find_internal_preserves_usage_witness :
    ([qInt].foldl (fun t q => (t.find posMatcher q).1) searcher1).stubUsed =
      searcher1.stubUsed ∧
    ([qInt].foldl (fun t q => (t.find posMatcher q).1) searcher1).used =
      searcher1.used ∧
    ([qInt].foldl (fun t q => (t.find posMatcher q).1) searcher1).unused =
      searcher1.unused :=
  find_internal_preserves_usage searcher1 posMatcher [qInt] (by decide)

/-- C7: over a store with no duplicate identifiers, `used` and `unused` form
a partition of `all`, membership being decided by presence of the record's
identifier in the usage-tracking set. -/
theorem used_unused_partition (s : Searcher) (r : Stub)
    (hnd : (s.storage.items.map Stub.ID).Nodup) :
    (r ∈ s.used ↔ r ∈ s.all ∧ r.ID ∈ s.stubUsed) ∧
    (r ∈ s.unused ↔ r ∈ s.all ∧ r.ID ∉ s.stubUsed) ∧
    ¬(r ∈ s.used ∧ r ∈ s.unused) ∧
    (r ∈ s.all ↔ r ∈ s.used ∨ r ∈ s.unused) := by
  have hu := mem_used_iff s hnd r
  have hn := mem_unused_iff s r
  refine ⟨hu, hn, ?_, ?_⟩
  · rintro ⟨h1, h2⟩
    exact ((hn.1 h2).2) ((hu.1 h1).2)
  · constructor
    · intro h
      by_cases hm2 : r.ID ∈ s.stubUsed
      · exact Or.inl (hu.2 ⟨h, hm2⟩)
      · exact Or.inr (hn.2 ⟨h, hm2⟩)
    · rintro (h | h)
      · exact (hu.1 h).1
      · exact (hn.1 h).1

/-- C7 witness: in `searcherU` (record 1 used), the partition statement holds
of `sA`. -/
theorem used_unused_partition_witness :
    (sA ∈ searcherU.used ↔ sA ∈ searcherU.all ∧ sA.ID ∈ searcherU.stubUsed) ∧
    (sA ∈ searcherU.unused ↔ sA ∈ searcherU.all ∧ sA.ID ∉ searcherU.stubUsed) ∧
    ¬(sA ∈ searcherU.used ∧ sA ∈ searcherU.unused) ∧
    (sA ∈ searcherU.all ↔ sA ∈ searcherU.used ∨ sA ∈ searcherU.unused) :=
  used_unused_partition searcherU sA (by decide)

/-- C9: a query with an explicit identifier whose (service, method) pair
exists is answered by the flat point lookup without checking the record's own
coordinates; a record filed under a different (service, method) than the one
queried is still returned as the strict match and marked used. -/
theorem find_by_id_ignores_coordinates (s : Searcher) (m : Matcher) (q : Query)
    (id : UUID) (n : Nat) (r : Stub)
    (hid : q.ID = some id)
    (hpos : s.storage.posByN q.service q.method = .ok n)
    (hr : s.findByID id = some r)
    (hdiff : r.service ≠ q.service ∨ r.method ≠ q.method) :
    s.find m q = (s.mark q id, .ok { found := some r, similar := none }) ∧
    (q.RequestInternal = false → r.ID ∈ (s.find m q).1.stubUsed) := by
  have hfind : s.find m q = (s.mark q id, .ok { found := some r, similar := none }) := by
    rw [find_eq_searchByID s m q id hid]
    exact searchByID_eq_of_some s q.service q.method q id n r hpos hr
  have hID : r.ID = id :=
    (findByID_some s.storage id r (by unfold Searcher.findByID at hr; exact hr)).2
  refine ⟨hfind, fun hint => ?_⟩
  rw [hfind]
  show r.ID ∈ (s.mark q id).stubUsed
  rw [mark_not_internal s q id hint, hID]
  exact List.mem_insert_self id s.stubUsed

/-- C9 witness: querying ("s", "m") with identifier 7 returns `sX`, which is
filed under ("t", "n"), and marks 7 used. -/
theorem find_by_id_ignores_coordinates_witness :
    searcher1.find posMatcher qId7 =
      (searcher1.mark qId7 7, .ok { found := some sX, similar := none }) ∧
    sX.ID ∈ (searcher1.find posMatcher qId7).1.stubUsed :=
  have h := find_by_id_ignores_coordinates searcher1 posMatcher qId7 7 3 sX
    (by decide) (by decide) (by decide) (Or.inl (by decide))
  ⟨h.1, h.2 (by decide)⟩

/-- C10: both running maxima of the scan start at 0 and update only on
strictly greater scores, so a candidate scoring exactly 0 is never selected
as similar and a matching candidate scoring 0 is never selected as the strict
match; a resolved bucket of only non-matching zero-score candidates makes
`find` fail with the stub-not-found error. -/
theorem scan_zero_score_never_selected (m : Matcher) (q : Query) (stubs : List Stub) :
    (∀ r, (scan m q stubs).similar = some r → 0 < m.rank q r) ∧
    (∀ r, (scan m q stubs).found = some r → m.isMatch q r = true ∧ 0 < m.rank q r) ∧
    (∀ (s : Searcher), q.ID = none → s.findBy q.service q.method = .ok stubs →
      (∀ x ∈ stubs, m.isMatch q x = false ∧ m.rank q x = 0) →
      s.find m q = (s, .error .stubNotFound)) := by
  refine ⟨?_, ?_, ?_⟩
  · intro r hr
    rcases foldl_scanStep_similar_spec m q stubs ⟨none, 0, none, 0⟩ with ⟨g1, _, _⟩ |
      ⟨l1, r2, l2, _, g1, _, g3, _, _⟩
    · have g1' : (scan m q stubs).similar = none := g1
      rw [hr] at g1'
      simp at g1'
    · have g1' : (scan m q stubs).similar = some r2 := g1
      cases Option.some.inj (g1'.symm.trans hr)
      exact g3
  · intro r hr
    rcases foldl_scanStep_found_match m q stubs ⟨none, 0, none, 0⟩ r hr with h | h
    · simp at h
    · exact h
  · intro s hidq hfb hall
    exact find_stub_not_found_of_low s m q stubs hidq hfb
      (fun x hx => le_of_eq (hall x hx).2)

/-- C10 witness: under `zeroRankMatcher` the selected similar candidate `sB`
indeed has positive score, and under `zeroMatcher` (all scores 0, nothing
matching) `find` fails with the stub-not-found error. -/
theorem scan_zero_score_never_selected_witness :
    0 < zeroRankMatcher.rank qScan sB ∧
    searcher1.find zeroMatcher qScan = (searcher1, .error .stubNotFound) :=
  ⟨(scan_zero_score_never_selected zeroRankMatcher qScan [sA, sB, sC]).1 sB (by decide),
   (scan_zero_score_never_selected zeroMatcher qScan [sA, sB, sC]).2.2 searcher1
     (by decide) (by decide) (by decide)⟩

end Stuber
